import Mathlib

/-!
Shallow embedding of the `tracer` Go package (files `span.go` and the
hook-registry file) together with proofs of the specification claims.

The underlying OpenTelemetry SDK is an external collaborator; it is modelled
at the level of the narrow interface this layer uses (start-span, set-status,
record-error, set-attributes, add-event, end).  Go `error` values are
modelled by `Option String` (nil / message of `Error()`), Go `float64`
values by their opaque 64-bit pattern (the code only stores and retrieves
them), and a `panic` payload by its `%v` rendering, since `fmt.Errorf`
immediately formats it to a string.
-/

/-- Status codes of the OTel status interface (`codes.Unset/Ok/Error`). -/
inductive StatusCode where
  | unset
  | ok
  | error
deriving DecidableEq, Repr

/-- A Go `float64` value, carried as its bit pattern: the tracer code never
computes with floats, it only stores and retrieves them. -/
structure GoFloat where
  bits : Nat
deriving DecidableEq, Repr

/-- A Go `error` value: `none` is `nil`, `some m` is a non-nil error whose
`Error()` method returns `m`. -/
abbrev GoError := Option String

/-- An OTel attribute value (`attribute.Value`), one constructor per kind
used by `spanAttributes.Parse`. -/
inductive AttrValue where
  | str (v : String)
  | bool (v : Bool)
  | int (v : Int)
  | float (v : GoFloat)
  | strSlice (v : List String)
deriving DecidableEq, Repr

/-- An OTel `attribute.KeyValue`. -/
abbrev KeyValue := String × AttrValue

/-! ### Go map primitives

Go maps keyed by `string` are modelled as association lists with unique
keys; `mapSet` is the map-assignment `m[k] = v` (replace if present, insert
otherwise), `lookupA` is map indexing. -/

/-- Go map assignment `m[k] = v`. -/
def mapSet {V : Type} : List (String × V) → String → V → List (String × V)
  | [], k, v => [(k, v)]
  | p :: rest, k, v => if p.1 = k then (k, v) :: rest else p :: mapSet rest k v

/-- Go map lookup `m[k]`. -/
def lookupA {V : Type} : List (String × V) → String → Option V
  | [], _ => none
  | p :: rest, k => if p.1 = k then some p.2 else lookupA rest k

/-- All values stored under key `k` (a real Go map has at most one). -/
def keyVals {V : Type} (m : List (String × V)) (k : String) : List V :=
  m.filterMap (fun p => if p.1 = k then some p.2 else none)

/-- The keys of an association list. -/
def keysOf {V : Type} (m : List (String × V)) : List String :=
  m.map Prod.fst

/-- Well-formedness of a modelled Go map: keys are pairwise distinct, which
every real Go map guarantees. -/
def nodupKeys {V : Type} (m : List (String × V)) : Prop :=
  (keysOf m).Nodup

instance {V : Type} (m : List (String × V)) : Decidable (nodupKeys m) :=
  inferInstanceAs (Decidable (keysOf m).Nodup)

/-! ### The attribute accumulator (`spanAttributes`) -/

/-- Alias for `Bool`, usable where the `spanAttributes.Bool` projection
shadows the type name. -/
abbrev BoolV := Bool

/-- Alias for `Int`, usable where the `spanAttributes.Int` projection
shadows the type name. -/
abbrev IntV := Int

/-- Go `spanAttributes`: five kind-segregated maps keyed by attribute name. -/
structure spanAttributes where
  Str : List (String × String) := []
  Bool : List (String × Bool) := []
  Slice : List (String × List String) := []
  Int : List (String × Int) := []
  Float : List (String × GoFloat) := []

/-- Go `NewAttrs()` returns an empty accumulator. -/
def NewAttrs : spanAttributes := {}

/-- Go `spanAttributes.Parse`: flattens the five kind maps into one list of
`attribute.KeyValue`, in the order of the Go range loops
(Str, Bool, Int, Float, Slice). -/
def spanAttributes.Parse (a : spanAttributes) : List KeyValue :=
  (a.Str.map fun p => (p.1, AttrValue.str p.2))
    ++ (a.Bool.map fun p => (p.1, AttrValue.bool p.2))
    ++ (a.Int.map fun p => (p.1, AttrValue.int p.2))
    ++ (a.Float.map fun p => (p.1, AttrValue.float p.2))
    ++ (a.Slice.map fun p => (p.1, AttrValue.strSlice p.2))

/-- Go `spanAttributes.StrKV`. -/
def spanAttributes.StrKV (a : spanAttributes) (k v : String) : spanAttributes :=
  { a with Str := mapSet a.Str k v }

/-- Go `spanAttributes.BoolKV`. -/
def spanAttributes.BoolKV (a : spanAttributes) (k : String) (v : BoolV) : spanAttributes :=
  { a with Bool := mapSet a.Bool k v }

/-- Go `spanAttributes.IntKV`. -/
def spanAttributes.IntKV (a : spanAttributes) (k : String) (v : IntV) : spanAttributes :=
  { a with Int := mapSet a.Int k v }

/-- Go `spanAttributes.FloatKV`. -/
def spanAttributes.FloatKV (a : spanAttributes) (k : String) (v : GoFloat) : spanAttributes :=
  { a with Float := mapSet a.Float k v }

/-- Go `spanAttributes.SliceKV`. -/
def spanAttributes.SliceKV (a : spanAttributes) (k : String) (v : List String) : spanAttributes :=
  { a with Slice := mapSet a.Slice k v }

/-- Go `spanAttributes.ErrorKV`: stores `"<nil>"` for a nil error, else the
error's message, in the string map. -/
def spanAttributes.ErrorKV (a : spanAttributes) (k : String) (v : GoError) : spanAttributes :=
  match v with
  | none => { a with Str := mapSet a.Str k "<nil>" }
  | some m => { a with Str := mapSet a.Str k m }

/-- Well-formedness of an accumulator: each of the five Go maps has
pairwise-distinct keys. -/
def spanAttributes.WF (a : spanAttributes) : Prop :=
  nodupKeys a.Str ∧ nodupKeys a.Bool ∧ nodupKeys a.Slice
    ∧ nodupKeys a.Int ∧ nodupKeys a.Float

instance (a : spanAttributes) : Decidable a.WF :=
  inferInstanceAs (Decidable (_ ∧ _ ∧ _ ∧ _ ∧ _))

/-! ### The underlying SDK span

The observable per-span state affected through the narrow interface:
kind, attribute table, status, recorded error events, end calls, events. -/

/-- Span kinds (`trace.SpanKind`). -/
inductive SpanKind where
  | internal
  | server
  | client
  | producer
  | consumer
deriving DecidableEq, Repr

/-- An event recorded on a span: message, optional explicit timestamp
(as an abstract tick), attached attributes. -/
structure SpanEvent where
  msg : String
  timestamp : Option Nat
  attrs : List KeyValue
deriving DecidableEq, Repr

/-- The modelled state of an SDK span (`trace.Span`). The attribute table
is a key-indexed map: `SetAttributes` upserts per key, last value wins. -/
structure OtelSpan where
  name : String
  tracerName : String
  kind : SpanKind
  attrs : String → Option AttrValue
  status : StatusCode × String
  recordedErrors : List (String × Bool)
  events : List SpanEvent
  endCount : Nat

/-- Apply a list of `KeyValue` to a span attribute table, in order; each
application upserts its key. -/
def applyKVs (f : String → Option AttrValue) (l : List KeyValue) : String → Option AttrValue :=
  l.foldl (fun g kv => fun k => if k = kv.1 then some kv.2 else g k) f

/-- Go `span.SetStatus(code, description)`. -/
def OtelSpan.SetStatus (o : OtelSpan) (c : StatusCode) (d : String) : OtelSpan :=
  { o with status := (c, d) }

/-- Go `span.RecordError(err, opts...)`; the flag records whether
`trace.WithStackTrace(true)` was passed (it defaults to false). -/
def OtelSpan.RecordError (o : OtelSpan) (msg : String) (withStackTrace : Bool) : OtelSpan :=
  { o with recordedErrors := o.recordedErrors ++ [(msg, withStackTrace)] }

/-- Go `span.SetAttributes(kvs...)`. -/
def OtelSpan.SetAttributes (o : OtelSpan) (kvs : List KeyValue) : OtelSpan :=
  { o with attrs := applyKVs o.attrs kvs }

/-- Go `span.AddEvent(msg, opts...)`. -/
def OtelSpan.AddEvent (o : OtelSpan) (e : SpanEvent) : OtelSpan :=
  { o with events := o.events ++ [e] }

/-- Go `span.End()`: counts the end calls so "ended exactly once" is visible. -/
def OtelSpan.End (o : OtelSpan) : OtelSpan :=
  { o with endCount := o.endCount + 1 }

/-- Go `tracer.Start(ctx, name, WithSpanKind(kind))`: a fresh recording span. -/
def startSpan (tracerName spanName : String) (kind : SpanKind) : OtelSpan :=
  { name := spanName
    tracerName := tracerName
    kind := kind
    attrs := fun _ => none
    status := (StatusCode.unset, "")
    recordedErrors := []
    events := []
    endCount := 0 }

/-! ### The `Span` wrapper -/

/-- The wrapper `Span`: underlying SDK span plus the attribute accumulator.
The Go `Ctx` field only carries the span for the SDK and is not separately
observable here. -/
structure Span where
  span : OtelSpan
  Attrs : spanAttributes

/-- Go `startOptions`. -/
structure startOptions where
  Kind : String := ""
  TracerName : String := ""

/-- Go `kindMap`: the fixed string-to-kind table. -/
def kindMap : List (String × SpanKind) :=
  [("internal", SpanKind.internal),
   ("server", SpanKind.server),
   ("client", SpanKind.client),
   ("producer", SpanKind.producer),
   ("consumer", SpanKind.consumer)]

/-- Go `New(ctx, spanName, tracerArgs...)`: resolves the kind (default
internal, overridden only on a successful `kindMap` lookup of the first
option's `Kind`) and starts a span. -/
def New (spanName : String) (tracerArgs : List startOptions) : Span :=
  let opt := match tracerArgs with
    | [] => ({} : startOptions)
    | o :: _ => o
  let kind := match tracerArgs with
    | [] => SpanKind.internal
    | o :: _ =>
      match lookupA kindMap o.Kind with
      | some spanKind => spanKind
      | none => SpanKind.internal
  { span := startSpan opt.TracerName spanName kind, Attrs := {} }

/-- Go `Span.Extract`: flushes the accumulated attributes onto the SDK span. -/
def Span.Extract (s : Span) : Span :=
  { s with span := s.span.SetAttributes s.Attrs.Parse }

/-- Go `Span.OK(msg...)`. -/
def Span.OK (s : Span) (msg : List String) : Span :=
  let description := match msg with
    | [] => ""
    | m :: _ => m
  { s with span := s.span.SetStatus StatusCode.ok description }

/-- Go `Span.SError(msg)`: no-op on the empty message. -/
def Span.SError (s : Span) (msg : String) : Span :=
  if msg = "" then s
  else { s with span := s.span.SetStatus StatusCode.error msg }

/-- Go `Span.Error(err, recordError...)`: nothing on nil; otherwise records the
error iff the first variadic flag is true (note: without
`WithStackTrace`), then sets status Error with the error's message. -/
def Span.Error (s : Span) (err : GoError) (recordError : List Bool) : Span :=
  match err with
  | none => s
  | some m =>
    let s1 := if recordError.headD false
      then { s with span := s.span.RecordError m false }
      else s
    { s1 with span := s1.span.SetStatus StatusCode.error m }

/-! ### `Span.End` with Go defer/panic/recover semantics

`End` is meant to run deferred.  `ExecState` pairs the wrapper with the
panic status of the unwinding goroutine: `panicking = some r` means a panic
whose payload renders (via `%v`) as `r` is unwinding when `End` runs.
`recover()` returns that payload, after which returning normally from the
deferred call stops the unwinding, so the output `panicking` is `none`. -/
structure ExecState where
  sp : Span
  panicking : Option String

/-- Go `Span.End()` as a deferred guard: on a panic, wraps the payload with
`fmt.Errorf("recovered from panic: %v", r)`, records it with
`WithStackTrace(true)`, calls `s.Error(err)`, ends the SDK span and
swallows the panic; on normal return, flushes attributes and ends. -/
def ExecState.End (st : ExecState) : ExecState :=
  match st.panicking with
  | some r =>
    let msg := "recovered from panic: " ++ r
    let s1 : Span := { st.sp with span := st.sp.span.RecordError msg true }
    let s2 := s1.Error (some msg) []
    { sp := { s2 with span := s2.span.End }, panicking := none }
  | none =>
    let s := st.sp.Extract
    { sp := { s with span := s.span.End }, panicking := none }

/-! ### The hook registry

`config` holds the two optional hooks; both setters run their assignment
inside the single shared `sync.Once`, modelled by the `onceDone` flag.
The hook function types are opaque to the registry, so the model is
parametric in them. -/

/-- The package-level `config` struct. -/
structure config (E P : Type) where
  errorFunc : Option E
  panicFunc : Option P

/-- The registry state: `cfg` plus the shared `sync.Once` done flag. -/
structure HookState (E P : Type) where
  cfg : config E P
  onceDone : Bool

/-- The zero-value state at process start: both hooks nil, once not fired. -/
def initialHooks (E P : Type) : HookState E P :=
  { cfg := { errorFunc := none, panicFunc := none }, onceDone := false }

/-- Go `SetErrorFunc(fn)`: `once.Do(func() { cfg.errorFunc = fn })`. -/
def SetErrorFunc {E P : Type} (fn : E) (st : HookState E P) : HookState E P :=
  if st.onceDone then st
  else { cfg := { st.cfg with errorFunc := some fn }, onceDone := true }

/-- Go `SetPanicFunc(fn)`: `once.Do(func() { cfg.panicFunc = fn })`. -/
def SetPanicFunc {E P : Type} (fn : P) (st : HookState E P) : HookState E P :=
  if st.onceDone then st
  else { cfg := { st.cfg with panicFunc := some fn }, onceDone := true }

/-- One call to either setter. -/
inductive HookCall (E P : Type) where
  | setError (fn : E)
  | setPanic (fn : P)

/-- Apply one registry call. -/
def applyCall {E P : Type} (c : HookCall E P) (st : HookState E P) : HookState E P :=
  match c with
  | .setError fn => SetErrorFunc fn st
  | .setPanic fn => SetPanicFunc fn st

/-- Run a sequence of registry calls from the initial process state. -/
def runCalls {E P : Type} (calls : List (HookCall E P)) : HookState E P :=
  calls.foldl (fun st c => applyCall c st) (initialHooks E P)

/-! ### Helper lemmas on the Go map model -/

theorem keysOf_nil {V : Type} : keysOf ([] : List (String × V)) = [] := rfl

theorem keysOf_cons {V : Type} (p : String × V) (m : List (String × V)) :
    keysOf (p :: m) = p.1 :: keysOf m := rfl

theorem mem_keysOf_mapSet {V : Type} (m : List (String × V)) (k : String) (v : V)
    (x : String) : x ∈ keysOf (mapSet m k v) ↔ x ∈ keysOf m ∨ x = k := by
  induction m with
  | nil => simp [mapSet, keysOf]
  | cons p rest ih =>
    by_cases hpk : p.1 = k
    · simp [mapSet, hpk, keysOf_cons, List.mem_cons]
      tauto
    · simp [mapSet, hpk, keysOf_cons, List.mem_cons] at ih ⊢
      tauto

theorem nodupKeys_mapSet {V : Type} (m : List (String × V)) (k : String) (v : V)
    (h : nodupKeys m) : nodupKeys (mapSet m k v) := by
  induction m with
  | nil => simp [mapSet, nodupKeys, keysOf]
  | cons p rest ih =>
    simp only [nodupKeys, keysOf_cons, List.nodup_cons] at h
    by_cases hpk : p.1 = k
    · simp only [mapSet, if_pos hpk, nodupKeys, keysOf_cons, List.nodup_cons]
      refine ⟨?_, h.2⟩
      rw [← hpk]
      exact h.1
    · simp only [mapSet, if_neg hpk, nodupKeys, keysOf_cons, List.nodup_cons]
      refine ⟨?_, ih h.2⟩
      intro hmem
      rcases (mem_keysOf_mapSet rest k v p.1).mp hmem with hin | heq
      · exact h.1 hin
      · exact hpk heq

theorem keyVals_nil_of_not_mem {V : Type} (m : List (String × V)) (k : String)
    (h : k ∉ keysOf m) : keyVals m k = [] := by
  induction m with
  | nil => rfl
  | cons p rest ih =>
    simp only [keysOf_cons, List.mem_cons, not_or] at h
    have hpk : ¬ p.1 = k := fun e => h.1 e.symm
    simp only [keyVals, List.filterMap_cons, if_neg hpk]
    exact ih h.2

theorem keyVals_mapSet_self {V : Type} (m : List (String × V)) (k : String) (v : V)
    (h : nodupKeys m) : keyVals (mapSet m k v) k = [v] := by
  induction m with
  | nil => simp [mapSet, keyVals]
  | cons p rest ih =>
    simp only [nodupKeys, keysOf_cons, List.nodup_cons] at h
    by_cases hpk : p.1 = k
    · have hrest : keyVals rest k = [] := by
        refine keyVals_nil_of_not_mem rest k ?_
        rw [← hpk]
        exact h.1
      simp only [mapSet, if_pos hpk, keyVals, List.filterMap_cons, if_pos rfl]
      simp only [keyVals] at hrest
      simp [hrest]
    · simp only [mapSet, if_neg hpk, keyVals, List.filterMap_cons, if_neg hpk]
      exact ih h.2

theorem lookupA_mapSet_self {V : Type} (m : List (String × V)) (k : String) (v : V) :
    lookupA (mapSet m k v) k = some v := by
  induction m with
  | nil => simp [mapSet, lookupA]
  | cons p rest ih =>
    by_cases hpk : p.1 = k
    · simp [mapSet, hpk, lookupA]
    · simp [mapSet, hpk, lookupA, ih]

theorem nodupKeys_foldl_mapSet {V : Type} (k : String) (vs : List V)
    (m : List (String × V)) (h : nodupKeys m) :
    nodupKeys (vs.foldl (fun mm x => mapSet mm k x) m) := by
  induction vs generalizing m with
  | nil => exact h
  | cons v vs ih => exact ih (mapSet m k v) (nodupKeys_mapSet m k v h)

theorem keyVals_fold_concat {V : Type} (m : List (String × V)) (k : String)
    (vs : List V) (v : V) (h : nodupKeys m) :
    keyVals ((vs ++ [v]).foldl (fun mm x => mapSet mm k x) m) k = [v] := by
  rw [List.foldl_append]
  exact keyVals_mapSet_self _ k v (nodupKeys_foldl_mapSet k vs m h)

/-! ### Kind-filtered views of a parsed attribute list -/

/-- Values of one attribute kind stored under key `k` in a `KeyValue` list;
`sel` picks the kind. -/
def kindEntries {V : Type} (sel : AttrValue → Option V) (l : List KeyValue)
    (k : String) : List V :=
  l.filterMap (fun kv => if kv.1 = k then sel kv.2 else none)

/-- Select string-kind values. -/
def strSel : AttrValue → Option String
  | .str v => some v
  | _ => none

/-- Select bool-kind values. -/
def boolSel : AttrValue → Option BoolV
  | .bool v => some v
  | _ => none

/-- Select int-kind values. -/
def intSel : AttrValue → Option IntV
  | .int v => some v
  | _ => none

/-- Select float-kind values. -/
def floatSel : AttrValue → Option GoFloat
  | .float v => some v
  | _ => none

/-- Select string-slice-kind values. -/
def sliceSel : AttrValue → Option (List String)
  | .strSlice v => some v
  | _ => none

/-- String-kind entries under key `k`. -/
def strEntries (l : List KeyValue) (k : String) : List String := kindEntries strSel l k

/-- Bool-kind entries under key `k`. -/
def boolEntries (l : List KeyValue) (k : String) : List BoolV := kindEntries boolSel l k

/-- Int-kind entries under key `k`. -/
def intEntries (l : List KeyValue) (k : String) : List IntV := kindEntries intSel l k

/-- Float-kind entries under key `k`. -/
def floatEntries (l : List KeyValue) (k : String) : List GoFloat := kindEntries floatSel l k

/-- Slice-kind entries under key `k`. -/
def sliceEntries (l : List KeyValue) (k : String) : List (List String) :=
  kindEntries sliceSel l k

theorem kindEntries_append {V : Type} (sel : AttrValue → Option V)
    (l1 l2 : List KeyValue) (k : String) :
    kindEntries sel (l1 ++ l2) k = kindEntries sel l1 k ++ kindEntries sel l2 k := by
  simp [kindEntries, List.filterMap_append]

theorem kindEntries_map_eq_keyVals {V : Type} (sel : AttrValue → Option V)
    (g : V → AttrValue) (hg : ∀ v, sel (g v) = some v)
    (m : List (String × V)) (k : String) :
    kindEntries sel (m.map fun p => (p.1, g p.2)) k = keyVals m k := by
  induction m with
  | nil => rfl
  | cons p rest ih =>
    by_cases hpk : p.1 = k
    · simp [kindEntries, keyVals, List.filterMap_cons, hpk, hg] at ih ⊢
      exact ih
    · simp [kindEntries, keyVals, List.filterMap_cons, hpk] at ih ⊢
      exact ih

theorem kindEntries_map_eq_nil {V W : Type} (sel : AttrValue → Option V)
    (g : W → AttrValue) (hg : ∀ w, sel (g w) = none)
    (m : List (String × W)) (k : String) :
    kindEntries sel (m.map fun p => (p.1, g p.2)) k = [] := by
  induction m with
  | nil => rfl
  | cons p rest ih =>
    simp only [List.map_cons, kindEntries, List.filterMap_cons] at ih ⊢
    by_cases hpk : p.1 = k <;> simp [hpk, hg, ih]

theorem strEntries_Parse (a : spanAttributes) (k : String) :
    strEntries a.Parse k = keyVals a.Str k := by
  simp [strEntries, spanAttributes.Parse, kindEntries_append,
    kindEntries_map_eq_keyVals strSel AttrValue.str (fun v => rfl),
    kindEntries_map_eq_nil strSel AttrValue.bool (fun w => rfl),
    kindEntries_map_eq_nil strSel AttrValue.int (fun w => rfl),
    kindEntries_map_eq_nil strSel AttrValue.float (fun w => rfl),
    kindEntries_map_eq_nil strSel AttrValue.strSlice (fun w => rfl)]

theorem boolEntries_Parse (a : spanAttributes) (k : String) :
    boolEntries a.Parse k = keyVals a.Bool k := by
  simp [boolEntries, spanAttributes.Parse, kindEntries_append,
    kindEntries_map_eq_keyVals boolSel AttrValue.bool (fun v => rfl),
    kindEntries_map_eq_nil boolSel AttrValue.str (fun w => rfl),
    kindEntries_map_eq_nil boolSel AttrValue.int (fun w => rfl),
    kindEntries_map_eq_nil boolSel AttrValue.float (fun w => rfl),
    kindEntries_map_eq_nil boolSel AttrValue.strSlice (fun w => rfl)]

theorem intEntries_Parse (a : spanAttributes) (k : String) :
    intEntries a.Parse k = keyVals a.Int k := by
  simp [intEntries, spanAttributes.Parse, kindEntries_append,
    kindEntries_map_eq_keyVals intSel AttrValue.int (fun v => rfl),
    kindEntries_map_eq_nil intSel AttrValue.str (fun w => rfl),
    kindEntries_map_eq_nil intSel AttrValue.bool (fun w => rfl),
    kindEntries_map_eq_nil intSel AttrValue.float (fun w => rfl),
    kindEntries_map_eq_nil intSel AttrValue.strSlice (fun w => rfl)]

theorem floatEntries_Parse (a : spanAttributes) (k : String) :
    floatEntries a.Parse k = keyVals a.Float k := by
  simp [floatEntries, spanAttributes.Parse, kindEntries_append,
    kindEntries_map_eq_keyVals floatSel AttrValue.float (fun v => rfl),
    kindEntries_map_eq_nil floatSel AttrValue.str (fun w => rfl),
    kindEntries_map_eq_nil floatSel AttrValue.bool (fun w => rfl),
    kindEntries_map_eq_nil floatSel AttrValue.int (fun w => rfl),
    kindEntries_map_eq_nil floatSel AttrValue.strSlice (fun w => rfl)]

theorem sliceEntries_Parse (a : spanAttributes) (k : String) :
    sliceEntries a.Parse k = keyVals a.Slice k := by
  simp [sliceEntries, spanAttributes.Parse, kindEntries_append,
    kindEntries_map_eq_keyVals sliceSel AttrValue.strSlice (fun v => rfl),
    kindEntries_map_eq_nil sliceSel AttrValue.str (fun w => rfl),
    kindEntries_map_eq_nil sliceSel AttrValue.bool (fun w => rfl),
    kindEntries_map_eq_nil sliceSel AttrValue.int (fun w => rfl),
    kindEntries_map_eq_nil sliceSel AttrValue.float (fun w => rfl)]

/-! ### Projections of setter folds -/

theorem StrKV_fold_Str (k : String) (vs : List String) :
    ∀ a : spanAttributes,
      (vs.foldl (fun acc x => acc.StrKV k x) a).Str
        = vs.foldl (fun m x => mapSet m k x) a.Str := by
  induction vs with
  | nil => intro a; rfl
  | cons v vs ih =>
    intro a
    simp only [List.foldl_cons]
    exact ih (a.StrKV k v)

theorem BoolKV_fold_Bool (k : String) (vs : List BoolV) :
    ∀ a : spanAttributes,
      (vs.foldl (fun acc x => acc.BoolKV k x) a).Bool
        = vs.foldl (fun m x => mapSet m k x) a.Bool := by
  induction vs with
  | nil => intro a; rfl
  | cons v vs ih =>
    intro a
    simp only [List.foldl_cons]
    exact ih (a.BoolKV k v)

theorem IntKV_fold_Int (k : String) (vs : List IntV) :
    ∀ a : spanAttributes,
      (vs.foldl (fun acc x => acc.IntKV k x) a).Int
        = vs.foldl (fun m x => mapSet m k x) a.Int := by
  induction vs with
  | nil => intro a; rfl
  | cons v vs ih =>
    intro a
    simp only [List.foldl_cons]
    exact ih (a.IntKV k v)

theorem FloatKV_fold_Float (k : String) (vs : List GoFloat) :
    ∀ a : spanAttributes,
      (vs.foldl (fun acc x => acc.FloatKV k x) a).Float
        = vs.foldl (fun m x => mapSet m k x) a.Float := by
  induction vs with
  | nil => intro a; rfl
  | cons v vs ih =>
    intro a
    simp only [List.foldl_cons]
    exact ih (a.FloatKV k v)

theorem SliceKV_fold_Slice (k : String) (vs : List (List String)) :
    ∀ a : spanAttributes,
      (vs.foldl (fun acc x => acc.SliceKV k x) a).Slice
        = vs.foldl (fun m x => mapSet m k x) a.Slice := by
  induction vs with
  | nil => intro a; rfl
  | cons v vs ih =>
    intro a
    simp only [List.foldl_cons]
    exact ih (a.SliceKV k v)

/-- The string `ErrorKV` stores for a given error: `"<nil>"` for nil, else
the message.  (Derived view of `ErrorKV`'s two branches.) -/
def errMsgOrNil : GoError → String
  | none => "<nil>"
  | some m => m

theorem ErrorKV_Str (a : spanAttributes) (k : String) (e : GoError) :
    (a.ErrorKV k e).Str = mapSet a.Str k (errMsgOrNil e) := by
  cases e <;> rfl

theorem ErrorKV_fold_Str (k : String) (es : List GoError) :
    ∀ a : spanAttributes,
      (es.foldl (fun acc x => acc.ErrorKV k x) a).Str
        = (es.map errMsgOrNil).foldl (fun m x => mapSet m k x) a.Str := by
  induction es with
  | nil => intro a; rfl
  | cons e es ih =>
    intro a
    simp only [List.foldl_cons, List.map_cons]
    rw [ih (a.ErrorKV k e), ErrorKV_Str]

/-! ### The span attribute table: last value wins -/

/-- The last value a `KeyValue` list carries for key `k`, if any. -/
def lastVal : List KeyValue → String → Option AttrValue
  | [], _ => none
  | kv :: l, k =>
    match lastVal l k with
    | some v => some v
    | none => if k = kv.1 then some kv.2 else none

theorem applyKVs_lastVal (l : List KeyValue) :
    ∀ (f : String → Option AttrValue) (k : String),
      applyKVs f l k
        = match lastVal l k with
          | some v => some v
          | none => f k := by
  induction l with
  | nil => intro f k; rfl
  | cons kv l ih =>
    intro f k
    have step : applyKVs f (kv :: l)
        = applyKVs (fun q => if q = kv.1 then some kv.2 else f q) l := rfl
    rw [step, ih]
    cases h : lastVal l k with
    | some v => simp [lastVal, h]
    | none =>
      simp only [lastVal, h]
      by_cases hk : k = kv.1 <;> simp [hk]

theorem applyKVs_idem (f : String → Option AttrValue) (l : List KeyValue) :
    applyKVs (applyKVs f l) l = applyKVs f l := by
  funext k
  rw [applyKVs_lastVal l (applyKVs f l) k, applyKVs_lastVal l f k]
  cases h : lastVal l k <;> simp [applyKVs_lastVal l f k, h]

/-! ### Hook registry lemmas -/

theorem applyCall_of_done {E P : Type} (c : HookCall E P) (st : HookState E P)
    (h : st.onceDone = true) : applyCall c st = st := by
  cases c <;> simp [applyCall, SetErrorFunc, SetPanicFunc, h]

theorem onceDone_applyCall_init {E P : Type} (c : HookCall E P) :
    (applyCall c (initialHooks E P)).onceDone = true := by
  cases c <;> simp [applyCall, SetErrorFunc, SetPanicFunc, initialHooks]

theorem foldl_applyCall_of_done {E P : Type} (calls : List (HookCall E P)) :
    ∀ st : HookState E P, st.onceDone = true →
      calls.foldl (fun st c => applyCall c st) st = st := by
  induction calls with
  | nil => intro st _; rfl
  | cons c calls ih =>
    intro st h
    simp only [List.foldl_cons, applyCall_of_done c st h]
    exact ih st h

/-! ### Claim theorems -/

/-- Claim C1: if `End()` runs while a panic is unwinding (deferred guard),
it wraps the panic payload into an error, records it on the span with a
captured stack trace, sets the span status to Error, ends the underlying
span exactly once, and the panic does not propagate past `End()`. -/
theorem claim_c1_end_panic_guard (st : ExecState) (r : String)
    (h : st.panicking = some r) :
    st.End.panicking = none
    ∧ st.End.sp.span.status = (StatusCode.error, "recovered from panic: " ++ r)
    ∧ st.End.sp.span.recordedErrors
        = st.sp.span.recordedErrors ++ [("recovered from panic: " ++ r, true)]
    ∧ st.End.sp.span.endCount = st.sp.span.endCount + 1 := by
  simp [ExecState.End, h, Span.Error, OtelSpan.RecordError, OtelSpan.SetStatus,
    OtelSpan.End, List.headD]

/-- A span mid-panic, for evaluating the panic branch of `End()`. -/
def demoExec1 : ExecState := { sp := New "demo" [], panicking := some "boom" }

/-- Witness for C1 at a concrete mid-panic state. -/
theorem claim_c1_witness :
    demoExec1.End.panicking = none
    ∧ demoExec1.End.sp.span.status
        = (StatusCode.error, "recovered from panic: " ++ "boom")
    ∧ demoExec1.End.sp.span.recordedErrors
        = demoExec1.sp.span.recordedErrors ++ [("recovered from panic: " ++ "boom", true)]
    ∧ demoExec1.End.sp.span.endCount = demoExec1.sp.span.endCount + 1 :=
  claim_c1_end_panic_guard demoExec1 "boom" rfl

/-- Claim C10: during a panic unwind `End()` does not flush the
accumulated attributes onto the underlying span; only the normal-return
path performs the `Extract` flush. -/
theorem claim_c10_panic_no_flush (st : ExecState) (r : String)
    (h : st.panicking = some r) :
    st.End.sp.span.attrs = st.sp.span.attrs
    ∧ (ExecState.End { sp := st.sp, panicking := none }).sp.span.attrs
        = applyKVs st.sp.span.attrs st.sp.Attrs.Parse := by
  constructor
  · simp [ExecState.End, h, Span.Error, OtelSpan.RecordError, OtelSpan.SetStatus,
      OtelSpan.End, List.headD]
  · simp [ExecState.End, Span.Extract, OtelSpan.SetAttributes, OtelSpan.End]

/-- A span that accumulated an attribute before a panic started. -/
def demoExec10 : ExecState :=
  { sp := { New "d10" [] with Attrs := NewAttrs.StrKV "route" "/x" },
    panicking := some "pp" }

/-- Witness for C10 at a concrete mid-panic state with a pending attribute. -/
theorem claim_c10_witness :
    demoExec10.End.sp.span.attrs = demoExec10.sp.span.attrs
    ∧ (ExecState.End { sp := demoExec10.sp, panicking := none }).sp.span.attrs
        = applyKVs demoExec10.sp.span.attrs demoExec10.sp.Attrs.Parse :=
  claim_c10_panic_no_flush demoExec10 "pp" rfl

/-- Claim C9: `SError("")` leaves the whole span state unchanged; for a
non-empty message it sets status Error with that message and changes
nothing else. -/
theorem claim_c9_serror (s : Span) :
    s.SError "" = s
    ∧ ∀ m : String, m ≠ "" →
        s.SError m = { s with span := { s.span with status := (StatusCode.error, m) } } := by
  constructor
  · simp [Span.SError]
  · intro m hm
    simp [Span.SError, hm, OtelSpan.SetStatus]

/-- A fresh span for the C9 witness. -/
def demoSpan9 : Span := New "d9" []

/-- Witness for C9 at a concrete span with messages `""` and `"x"`. -/
theorem claim_c9_witness :
    demoSpan9.SError "" = demoSpan9
    ∧ demoSpan9.SError "x"
        = { demoSpan9 with span := { demoSpan9.span with status := (StatusCode.error, "x") } } :=
  ⟨(claim_c9_serror demoSpan9).1, (claim_c9_serror demoSpan9).2 "x" (by decide)⟩

/-- Claim C4: `ErrorKV(k, err)` stores the literal `"<nil>"` under `k` in
the string-kind map when `err` is nil, and exactly the error's message
when `err` is non-nil. -/
theorem claim_c4_errorkv (a : spanAttributes) (k : String) :
    lookupA (a.ErrorKV k none).Str k = some "<nil>"
    ∧ ∀ m : String, lookupA (a.ErrorKV k (some m)).Str k = some m := by
  constructor
  · simp [spanAttributes.ErrorKV, lookupA_mapSet_self]
  · intro m
    simp [spanAttributes.ErrorKV, lookupA_mapSet_self]

/-- Claim C5: span kind is resolved from the strings internal, server,
client, producer, consumer; any other kind string, or an absent options
argument, yields kind internal. -/
theorem claim_c5_kind_resolution :
    (∀ name : String, (New name []).span.kind = SpanKind.internal)
    ∧ (∀ (name tn : String) (rest : List startOptions),
        (New name ({ Kind := "internal", TracerName := tn } :: rest)).span.kind
            = SpanKind.internal
        ∧ (New name ({ Kind := "server", TracerName := tn } :: rest)).span.kind
            = SpanKind.server
        ∧ (New name ({ Kind := "client", TracerName := tn } :: rest)).span.kind
            = SpanKind.client
        ∧ (New name ({ Kind := "producer", TracerName := tn } :: rest)).span.kind
            = SpanKind.producer
        ∧ (New name ({ Kind := "consumer", TracerName := tn } :: rest)).span.kind
            = SpanKind.consumer)
    ∧ (∀ (name : String) (o : startOptions) (rest : List startOptions),
        o.Kind ∉ ["internal", "server", "client", "producer", "consumer"] →
        (New name (o :: rest)).span.kind = SpanKind.internal) := by
  refine ⟨fun name => rfl, fun name tn rest => ⟨rfl, rfl, rfl, rfl, rfl⟩, ?_⟩
  intro name o rest h
  simp only [List.mem_cons, List.not_mem_nil, or_false, not_or] at h
  obtain ⟨h1, h2, h3, h4, h5⟩ := h
  simp [New, kindMap, lookupA, startSpan, Ne.symm h1, Ne.symm h2, Ne.symm h3,
    Ne.symm h4, Ne.symm h5]

/-- Witness for C5: the unrecognized kind string `"bogus"` falls back to
internal. -/
theorem claim_c5_witness :
    "bogus" ∉ ["internal", "server", "client", "producer", "consumer"]
    ∧ (New "w5" [{ Kind := "bogus", TracerName := "" }]).span.kind = SpanKind.internal :=
  ⟨by decide,
   claim_c5_kind_resolution.2.2 "w5" { Kind := "bogus", TracerName := "" } [] (by decide)⟩

/-- Claim C2: only the first call to either `SetErrorFunc` or
`SetPanicFunc` takes effect — both share the single `sync.Once` gate, so
every later call to either setter is a no-op; in particular calling
`SetErrorFunc` then `SetPanicFunc` retains only the error hook and
discards the panic hook. -/
theorem claim_c2_shared_gate {E P : Type} (c : HookCall E P)
    (rest : List (HookCall E P)) (e : E) (p : P) :
    runCalls (c :: rest) = applyCall c (initialHooks E P)
    ∧ (SetErrorFunc e (initialHooks E P)).cfg.errorFunc = some e
    ∧ (SetPanicFunc p (initialHooks E P)).cfg.panicFunc = some p
    ∧ (SetPanicFunc p (SetErrorFunc e (initialHooks E P))).cfg.errorFunc = some e
    ∧ (SetPanicFunc p (SetErrorFunc e (initialHooks E P))).cfg.panicFunc = none := by
  refine ⟨?_, rfl, rfl, rfl, rfl⟩
  show (c :: rest).foldl (fun st c => applyCall c st) (initialHooks E P) = _
  rw [List.foldl_cons]
  exact foldl_applyCall_of_done rest _ (onceDone_applyCall_init c)

/-- A fresh span for the C3 counterexample. -/
def demoSpan3 : Span := New "d3" []

/-- Counterexample to C3 as stated: with a non-nil error and
`recordStackTrace = true`, `Error` records the error WITHOUT stack-trace
capture — the code calls `RecordError(err)` without
`trace.WithStackTrace(true)` — so no stack-trace-bearing record exists. -/
theorem claim_c3_counterexample :
    (demoSpan3.Error (some "boom") [true]).span.recordedErrors = [("boom", false)]
    ∧ (demoSpan3.Error (some "boom") [true]).span.recordedErrors ≠ [("boom", true)] := by
  have h1 : (demoSpan3.Error (some "boom") [true]).span.recordedErrors
      = [("boom", false)] := rfl
  refine ⟨h1, ?_⟩
  rw [h1]
  decide

/-- Claim C3 (amended): `Error(err, recordStackTrace)` is a no-op when
`err` is nil; when non-nil it sets status Error with the error's message
and records the error — without stack-trace capture — iff
`recordStackTrace` is true, defaulting to false when omitted. -/
theorem claim_c3_amended (s : Span) (rec : List Bool) (m : String) :
    s.Error none rec = s
    ∧ (s.Error (some m) rec).span.status = (StatusCode.error, m)
    ∧ (s.Error (some m) rec).span.recordedErrors
        = s.span.recordedErrors ++ (if rec.headD false then [(m, false)] else [])
    ∧ (s.Error (some m) []).span.recordedErrors = s.span.recordedErrors := by
  refine ⟨rfl, ?_, ?_, ?_⟩
  · cases rec with
    | nil => simp [Span.Error, OtelSpan.RecordError, OtelSpan.SetStatus]
    | cons b bs => cases b <;> simp [Span.Error, OtelSpan.RecordError, OtelSpan.SetStatus]
  · cases rec with
    | nil => simp [Span.Error, OtelSpan.RecordError, OtelSpan.SetStatus]
    | cons b bs => cases b <;> simp [Span.Error, OtelSpan.RecordError, OtelSpan.SetStatus]
  · simp [Span.Error, OtelSpan.RecordError, OtelSpan.SetStatus]

/-- Claim C6: setting the same key via two different typed setters yields
two separate `Parse` entries for that key, one per value kind. -/
theorem claim_c6_two_kinds (a : spanAttributes) (k sv : String) (iv : IntV)
    (h : a.WF) :
    strEntries (((a.StrKV k sv).IntKV k iv).Parse) k = [sv]
    ∧ intEntries (((a.StrKV k sv).IntKV k iv).Parse) k = [iv] := by
  obtain ⟨hstr, hbool, hslice, hint, hfloat⟩ := h
  constructor
  · rw [strEntries_Parse]
    have hproj : ((a.StrKV k sv).IntKV k iv).Str = mapSet a.Str k sv := rfl
    rw [hproj]
    exact keyVals_mapSet_self a.Str k sv hstr
  · rw [intEntries_Parse]
    have hproj : ((a.StrKV k sv).IntKV k iv).Int = mapSet a.Int k iv := rfl
    rw [hproj]
    exact keyVals_mapSet_self a.Int k iv hint

/-- Witness for C6 on an empty accumulator with key `"k"`. -/
theorem claim_c6_witness :
    strEntries (((NewAttrs.StrKV "k" "v").IntKV "k" 7).Parse) "k" = ["v"]
    ∧ intEntries (((NewAttrs.StrKV "k" "v").IntKV "k" 7).Parse) "k" = [7] :=
  claim_c6_two_kinds NewAttrs "k" "v" 7 (by decide)

/-- Claim C7: for each typed setter, a sequence of repeated calls with the
same key leaves exactly one `Parse` entry for that key in that kind,
holding the value of the last call. -/
theorem claim_c7_last_write_wins (a : spanAttributes) (k : String) (h : a.WF) :
    (∀ (vs : List String) (v : String),
        strEntries (((vs ++ [v]).foldl (fun acc x => acc.StrKV k x) a).Parse) k = [v])
    ∧ (∀ (vs : List BoolV) (v : BoolV),
        boolEntries (((vs ++ [v]).foldl (fun acc x => acc.BoolKV k x) a).Parse) k = [v])
    ∧ (∀ (vs : List IntV) (v : IntV),
        intEntries (((vs ++ [v]).foldl (fun acc x => acc.IntKV k x) a).Parse) k = [v])
    ∧ (∀ (vs : List GoFloat) (v : GoFloat),
        floatEntries (((vs ++ [v]).foldl (fun acc x => acc.FloatKV k x) a).Parse) k = [v])
    ∧ (∀ (vs : List (List String)) (v : List String),
        sliceEntries (((vs ++ [v]).foldl (fun acc x => acc.SliceKV k x) a).Parse) k = [v])
    ∧ (∀ (es : List GoError) (e : GoError),
        strEntries (((es ++ [e]).foldl (fun acc x => acc.ErrorKV k x) a).Parse) k
            = [errMsgOrNil e]) := by
  obtain ⟨hstr, hbool, hslice, hint, hfloat⟩ := h
  refine ⟨?_, ?_, ?_, ?_, ?_, ?_⟩
  · intro vs v
    rw [strEntries_Parse, StrKV_fold_Str k (vs ++ [v]) a]
    exact keyVals_fold_concat a.Str k vs v hstr
  · intro vs v
    rw [boolEntries_Parse, BoolKV_fold_Bool k (vs ++ [v]) a]
    exact keyVals_fold_concat a.Bool k vs v hbool
  · intro vs v
    rw [intEntries_Parse, IntKV_fold_Int k (vs ++ [v]) a]
    exact keyVals_fold_concat a.Int k vs v hint
  · intro vs v
    rw [floatEntries_Parse, FloatKV_fold_Float k (vs ++ [v]) a]
    exact keyVals_fold_concat a.Float k vs v hfloat
  · intro vs v
    rw [sliceEntries_Parse, SliceKV_fold_Slice k (vs ++ [v]) a]
    exact keyVals_fold_concat a.Slice k vs v hslice
  · intro es e
    rw [strEntries_Parse, ErrorKV_fold_Str k (es ++ [e]) a]
    have hmap : (es ++ [e]).map errMsgOrNil
        = es.map errMsgOrNil ++ [errMsgOrNil e] := by simp
    rw [hmap]
    exact keyVals_fold_concat a.Str k (es.map errMsgOrNil) (errMsgOrNil e) hstr

/-- Witness for C7: two successive `StrKV` calls keep only the last value. -/
theorem claim_c7_witness :
    strEntries (((["a"] ++ ["b"]).foldl
        (fun acc x => acc.StrKV "k" x) NewAttrs).Parse) "k" = ["b"] :=
  (claim_c7_last_write_wins NewAttrs "k" (by decide)).1 ["a"] "b"

/-- Claim C8: `Extract()` flushes the accumulated attribute set onto the
underlying span and is idempotent: a second `Extract()` re-applies the
same attributes and leaves exactly the state of a single call, the last
value winning per key. -/
theorem claim_c8_extract_idempotent (s : Span) :
    s.Extract.Extract = s.Extract
    ∧ ∀ k : String,
        s.Extract.span.attrs k
          = match lastVal s.Attrs.Parse k with
            | some v => some v
            | none => s.span.attrs k := by
  constructor
  · simp [Span.Extract, OtelSpan.SetAttributes, applyKVs_idem]
  · intro k
    exact applyKVs_lastVal s.Attrs.Parse s.span.attrs k
